import Mathlib

/-!
Verification of a minimal virtual-filesystem (VFS) directory-listing program.

The program defines a `Vfs` trait with one operation, `list_files`, and one
backend, `TokioVfs`, which opens a directory with the OS `read_dir` facility
(panicking if the open fails), wraps the OS iteration handle as a lazy
sequence, and maps each raw OS entry result to a path result: on success the
entry's path, on failure the underlying error wrapped with the context string
"context".  The `main` entry point resolves the current working directory
(panicking on failure), constructs the VFS, drains the sequence logging one
info line per element, and finally logs "done".

The embedding below is shallow: the OS directory state is an oracle mapping a
path to either an open error or the finite list of raw entry results the OS
iterator yields for that directory; the lazy sequence is its image under the
per-entry transformation, represented as a list; panics are an explicit
constructor of the result type.
-/

/-- A file-system path, modelled as its list of components. -/
structure PathBuf where
  components : List String
deriving DecidableEq, Repr

/-- Appending one more component: the path of a direct child. -/
def PathBuf.child (p : PathBuf) (name : String) : PathBuf :=
  ⟨p.components ++ [name]⟩

/-- `c` is a direct child of directory `d`. -/
def DirectChild (c d : PathBuf) : Prop :=
  ∃ name : String, c = d.child name

/-- The distinguished kinds of OS I/O error relevant to directory reading. -/
inductive IOErr where
  | notFound
  | notADirectory
  | permissionDenied
  | other (code : Nat)
deriving DecidableEq, Repr

/-- A raw OS directory entry, carrying the full path of the entry
(`DirEntry::path` joins the scanned directory's path with the file name). -/
structure DirEntry where
  path : PathBuf
deriving DecidableEq, Repr

/-- The OS iteration handle wrapped as a sequence: each fetch of the next
entry yields either a raw entry or a per-entry I/O error. -/
abbrev ReadDirStream := List (Except IOErr DirEntry)

/-- The OS directory-reading oracle: opening a directory at a path either
fails (missing, not a directory, inaccessible) or hands back the finite
iteration the OS produces for it. -/
abbrev OsDirs := PathBuf → Except IOErr ReadDirStream

/-- An error as propagated to the consumer: the underlying OS error together
with the descriptive context string attached to it. -/
structure AnyhowErr where
  context : String
  source : IOErr
deriving DecidableEq, Repr

/-- The per-entry transformation `entry.context("context").map(|x| x.path())`:
on success extract the entry's path, on failure attach the context string. -/
def mapEntry (entry : Except IOErr DirEntry) : Except AnyhowErr PathBuf :=
  (entry.mapError (fun e => ⟨"context", e⟩)).map DirEntry.path

/-- The outcome of calling `list_files`: either the process panics (the
`unwrap` on the directory open), or a stream of path results is handed back. -/
inductive PathStreamResult where
  | panic
  | stream (s : List (Except AnyhowErr PathBuf))
deriving Repr

/-- `TokioVfs::list_files`: open the directory (`read_dir(path).await.unwrap()`,
panicking if the open fails), wrap the handle as a stream, and map each raw
entry through `mapEntry`. -/
def TokioVfs.list_files (os : OsDirs) (path : PathBuf) : PathStreamResult :=
  match os path with
  | .error _ => .panic
  | .ok read_dir => .stream (read_dir.map mapEntry)

/-- The successful paths of a stream, in order. -/
def successPaths (s : List (Except AnyhowErr PathBuf)) : List PathBuf :=
  s.filterMap Except.toOption

/-- The OS iteration of a stable directory whose entries have the given
names: every fetch succeeds and yields the child path for one name. -/
def stableDir (dir : PathBuf) (names : List String) : ReadDirStream :=
  names.map (fun n => .ok ⟨dir.child n⟩)

theorem mapEntry_ok (d : DirEntry) : mapEntry (.ok d) = .ok d.path := rfl

theorem mapEntry_error (e : IOErr) :
    mapEntry (.error e) = .error ⟨"context", e⟩ := rfl

/-- **C2.** Whenever opening the directory fails, `list_files` panics,
halting the process rather than returning an error value or an error element
to the caller. -/
theorem list_files_panics_on_open_failure (os : OsDirs) (path : PathBuf)
    (e : IOErr) (h : os path = .error e) :
    TokioVfs.list_files os path = .panic := by
  unfold TokioVfs.list_files
  rw [h]

/-- Witness for C2: a concrete oracle on which opening `/x` is denied. -/
theorem list_files_panics_on_open_failure_witness :
    TokioVfs.list_files (fun _ => .error .permissionDenied) ⟨["x"]⟩ = .panic :=
  list_files_panics_on_open_failure _ _ .permissionDenied rfl

theorem PathBuf.child_injective (dir : PathBuf) :
    Function.Injective dir.child := by
  intro a b h
  simpa [PathBuf.child, PathBuf.mk.injEq] using h

theorem stableDir_map_mapEntry (dir : PathBuf) (names : List String) :
    (stableDir dir names).map mapEntry
      = names.map (fun n => Except.ok (dir.child n)) := by
  simp [stableDir, List.map_map, Function.comp, mapEntry_ok]

theorem successPaths_all_ok (f : String → PathBuf) (names : List String) :
    successPaths (names.map (fun n => Except.ok (f n))) = names.map f := by
  induction names with
  | nil => rfl
  | cons a t ih =>
    simp only [List.map_cons, successPaths, List.filterMap_cons,
      Except.toOption] at ih ⊢
    rw [ih]

/-- **C1.** On a stable directory with `N` distinct entry names, `list_files`
hands back a stream of exactly `N` results, every one a success carrying a
distinct direct child of the directory, with no entry omitted. -/
theorem list_files_stable_dir (os : OsDirs) (dir : PathBuf)
    (names : List String) (hstable : os dir = .ok (stableDir dir names))
    (hnodup : names.Nodup) :
    ∃ s, TokioVfs.list_files os dir = .stream s ∧
      s.length = names.length ∧
      (∀ r ∈ s, ∃ p, r = .ok p ∧ DirectChild p dir) ∧
      (successPaths s).Nodup ∧
      ∀ n ∈ names, Except.ok (dir.child n) ∈ s := by
  refine ⟨(stableDir dir names).map mapEntry, ?_, ?_, ?_, ?_, ?_⟩
  · unfold TokioVfs.list_files
    rw [hstable]
  · simp [stableDir]
  · intro r hr
    simp only [stableDir, List.map_map, List.mem_map, Function.comp] at hr
    obtain ⟨n, _, rfl⟩ := hr
    exact ⟨dir.child n, rfl, n, rfl⟩
  · rw [stableDir_map_mapEntry, successPaths_all_ok]
    exact hnodup.map (PathBuf.child_injective dir)
  · intro n hn
    simp only [stableDir, List.map_map, List.mem_map, Function.comp]
    exact ⟨n, hn, rfl⟩

/-- Witness for C1: the scenario of `/tmp/d` holding `a.txt` and `b.txt`. -/
theorem list_files_stable_dir_witness :
    ∃ s, TokioVfs.list_files
        (fun p => .ok (stableDir p ["a.txt", "b.txt"])) ⟨["tmp", "d"]⟩
        = .stream s ∧
      s.length = (["a.txt", "b.txt"] : List String).length ∧
      (∀ r ∈ s, ∃ p, r = .ok p ∧ DirectChild p ⟨["tmp", "d"]⟩) ∧
      (successPaths s).Nodup ∧
      ∀ n ∈ (["a.txt", "b.txt"] : List String),
        Except.ok (PathBuf.child ⟨["tmp", "d"]⟩ n) ∈ s :=
  list_files_stable_dir _ ⟨["tmp", "d"]⟩ ["a.txt", "b.txt"] rfl (by decide)

/-- The OS oracle of a filesystem in which every directory open fails with
"not found". -/
def osAllMissing : OsDirs := fun _ => .error .notFound

/-- Whether a `list_files` outcome hands a stream back to the caller at all
(as opposed to panicking, which terminates the process). -/
def PathStreamResult.yieldsToCaller : PathStreamResult → Bool
  | .panic => false
  | .stream _ => true

/-- **C3 counterexample.** On a missing directory `/tmp/d/missing`,
`list_files` does not return or yield anything (in particular no "not found"
error value) to its caller: it panics, terminating the process. -/
theorem list_files_missing_dir_cex :
    (TokioVfs.list_files osAllMissing ⟨["tmp", "d", "missing"]⟩).yieldsToCaller
        = false ∧
    TokioVfs.list_files osAllMissing ⟨["tmp", "d", "missing"]⟩ = .panic :=
  ⟨rfl, rfl⟩

/-- **C3 amended.** For a nonexistent input directory, `list_files` panics,
terminating the process, and hands nothing back to its caller. -/
theorem list_files_missing_dir_panics (os : OsDirs) (path : PathBuf)
    (h : os path = .error .notFound) :
    TokioVfs.list_files os path = .panic ∧
    (TokioVfs.list_files os path).yieldsToCaller = false := by
  unfold TokioVfs.list_files
  rw [h]
  exact ⟨rfl, rfl⟩

/-- Witness for C3 amended: the all-missing filesystem at a concrete path. -/
theorem list_files_missing_dir_panics_witness :
    TokioVfs.list_files osAllMissing ⟨["m"]⟩ = .panic ∧
    (TokioVfs.list_files osAllMissing ⟨["m"]⟩).yieldsToCaller = false :=
  list_files_missing_dir_panics osAllMissing ⟨["m"]⟩ rfl

/-- **C4.** When the raw OS iteration fails at position `i`, the stream
returned by `list_files` carries, at that same position, that error wrapped
with the context string "context", keeps its full length, and still produces
every subsequent entry (each the image of the corresponding raw entry). -/
theorem list_files_per_entry_failure (os : OsDirs) (path : PathBuf)
    (rd : ReadDirStream) (i : Nat) (e : IOErr)
    (hrd : os path = .ok rd) (he : rd[i]? = some (.error e)) :
    ∃ s, TokioVfs.list_files os path = .stream s ∧
      s.length = rd.length ∧
      s[i]? = some (.error ⟨"context", e⟩) ∧
      ∀ j, i < j → s[j]? = (rd[j]?).map mapEntry := by
  refine ⟨rd.map mapEntry, ?_, by simp, ?_, ?_⟩
  · unfold TokioVfs.list_files
    rw [hrd]
  · simp [List.getElem?_map, he, mapEntry_error]
  · intro j _
    simp [List.getElem?_map]

/-- Witness for C4: a two-entry scan whose first fetch fails. -/
theorem list_files_per_entry_failure_witness :
    ∃ s, TokioVfs.list_files
        (fun _ => .ok [.error .permissionDenied, .ok ⟨⟨["tmp", "b"]⟩⟩])
        ⟨["tmp"]⟩ = .stream s ∧
      s.length = ([.error .permissionDenied,
        .ok ⟨⟨["tmp", "b"]⟩⟩] : ReadDirStream).length ∧
      s[0]? = some (.error ⟨"context", .permissionDenied⟩) ∧
      ∀ j : Nat, 0 < j → s[j]? = (([.error .permissionDenied,
        .ok ⟨⟨["tmp", "b"]⟩⟩] : ReadDirStream)[j]?).map mapEntry :=
  list_files_per_entry_failure _ ⟨["tmp"]⟩ _ 0 .permissionDenied rfl rfl

/-- **C5.** The stream returned by `list_files` has one element per raw OS
entry and, at every index, carries the image of the raw entry at that same
index: the per-element transformation never reorders or permutes the
underlying iteration order. -/
theorem list_files_preserves_order (os : OsDirs) (path : PathBuf)
    (rd : ReadDirStream) (hrd : os path = .ok rd) :
    ∃ s, TokioVfs.list_files os path = .stream s ∧
      s.length = rd.length ∧
      ∀ i : Nat, s[i]? = (rd[i]?).map mapEntry := by
  refine ⟨rd.map mapEntry, ?_, by simp, ?_⟩
  · unfold TokioVfs.list_files
    rw [hrd]
  · intro i
    simp [List.getElem?_map]

/-- Witness for C5: a concrete two-entry scan. -/
theorem list_files_preserves_order_witness :
    ∃ s, TokioVfs.list_files
        (fun _ => .ok [.ok ⟨⟨["a"]⟩⟩, .error .notFound]) ⟨[]⟩ = .stream s ∧
      s.length = ([.ok ⟨⟨["a"]⟩⟩, .error .notFound] : ReadDirStream).length ∧
      ∀ i : Nat, s[i]? = (([.ok ⟨⟨["a"]⟩⟩,
        .error .notFound] : ReadDirStream)[i]?).map mapEntry :=
  list_files_preserves_order _ ⟨[]⟩ _ rfl

/-- **C6.** Counted with multiplicity, the elements of the stream are exactly
the images of the raw OS entries: the per-element transformation neither
duplicates nor drops any entry of the single underlying scan. -/
theorem list_files_one_per_entry (os : OsDirs) (path : PathBuf)
    (rd : ReadDirStream) (hrd : os path = .ok rd) :
    ∃ s, TokioVfs.list_files os path = .stream s ∧
      (s : Multiset (Except AnyhowErr PathBuf))
        = (rd : Multiset (Except IOErr DirEntry)).map mapEntry ∧
      s.length = rd.length := by
  refine ⟨rd.map mapEntry, ?_, ?_, by simp⟩
  · unfold TokioVfs.list_files
    rw [hrd]
  · simp

/-- Witness for C6: a concrete scan with one success and one failure. -/
theorem list_files_one_per_entry_witness :
    ∃ s, TokioVfs.list_files
        (fun _ => .ok [.ok ⟨⟨["w"]⟩⟩, .error .notFound]) ⟨[]⟩ = .stream s ∧
      (s : Multiset (Except AnyhowErr PathBuf))
        = (([.ok ⟨⟨["w"]⟩⟩, .error .notFound] : ReadDirStream)
            : Multiset (Except IOErr DirEntry)).map mapEntry ∧
      s.length = ([.ok ⟨⟨["w"]⟩⟩, .error .notFound] : ReadDirStream).length :=
  list_files_one_per_entry _ ⟨[]⟩ _ rfl

/-- **C7.** Two calls on a directory whose scans return the same entries (up
to the OS iteration order, which is allowed to vary) produce streams with the
same successful paths, up to order; in particular the same set of paths. -/
theorem list_files_idempotent (os₁ os₂ : OsDirs) (path : PathBuf)
    (rd₁ rd₂ : ReadDirStream) (h₁ : os₁ path = .ok rd₁)
    (h₂ : os₂ path = .ok rd₂) (hperm : rd₁.Perm rd₂) :
    ∃ s₁ s₂, TokioVfs.list_files os₁ path = .stream s₁ ∧
      TokioVfs.list_files os₂ path = .stream s₂ ∧
      (successPaths s₁).Perm (successPaths s₂) ∧
      ∀ p, p ∈ successPaths s₁ ↔ p ∈ successPaths s₂ := by
  refine ⟨rd₁.map mapEntry, rd₂.map mapEntry, ?_, ?_, ?_, ?_⟩
  · unfold TokioVfs.list_files
    rw [h₁]
  · unfold TokioVfs.list_files
    rw [h₂]
  · exact (hperm.map mapEntry).filterMap Except.toOption
  · intro p
    exact ((hperm.map mapEntry).filterMap Except.toOption).mem_iff

/-- Witness for C7: two calls over the same unchanged one-entry directory. -/
theorem list_files_idempotent_witness :
    ∃ s₁ s₂, TokioVfs.list_files
        (fun _ => .ok [.ok ⟨⟨["a"]⟩⟩]) ⟨[]⟩ = .stream s₁ ∧
      TokioVfs.list_files (fun _ => .ok [.ok ⟨⟨["a"]⟩⟩]) ⟨[]⟩ = .stream s₂ ∧
      (successPaths s₁).Perm (successPaths s₂) ∧
      ∀ p, p ∈ successPaths s₁ ↔ p ∈ successPaths s₂ :=
  list_files_idempotent _ _ ⟨[]⟩ [.ok ⟨⟨["a"]⟩⟩] [.ok ⟨⟨["a"]⟩⟩]
    rfl rfl (List.Perm.refl _)

/-- One observable event of a program run, in order of occurrence. -/
inductive Event where
  | vfsConstructed
  | listFilesCalled
  | logInfo (line : String)
  | panicked
deriving DecidableEq, Repr

/-- The textual rendering of a path, as it appears inside a log line. -/
def renderPathBuf (p : PathBuf) : String :=
  String.intercalate "/" p.components

/-- The textual rendering of one path result as logged by
`tracing::info!(?path)`: the debug form showing the path value and whether
the element is a success or a failure. -/
def renderResult : Except AnyhowErr PathBuf → String
  | .ok p => "Ok(" ++ renderPathBuf p ++ ")"
  | .error e => "Err(" ++ e.context ++ ")"

/-- The info-log line carried by an event, when it is a log event. -/
def Event.infoLine : Event → Option String
  | .logInfo l => some l
  | _ => none

/-- The event trace of `main`: resolve the current working directory
(`std::env::current_dir().unwrap()`, panicking on failure), construct the
`TokioVfs`, call `list_files` on the resolved root (which may itself panic),
log one info line per stream element, then log "done". -/
def mainTrace (current_dir : Except IOErr PathBuf) (os : OsDirs) :
    List Event :=
  match current_dir with
  | .error _ => [.panicked]
  | .ok root =>
    .vfsConstructed ::
    .listFilesCalled ::
    match TokioVfs.list_files os root with
    | .panic => [.panicked]
    | .stream s => s.map (fun r => .logInfo (renderResult r))
        ++ [.logInfo "done"]

theorem filterMap_infoLine_map_logInfo (f : Except AnyhowErr PathBuf → String)
    (l : List (Except AnyhowErr PathBuf)) :
    (l.map (fun r => Event.logInfo (f r))).filterMap Event.infoLine
      = l.map f := by
  induction l with
  | nil => rfl
  | cons a t ih =>
    simp only [List.map_cons, List.filterMap_cons, Event.infoLine]
    rw [ih]

/-- **C8.** In a run where the root directory opens successfully, the info
log lines are exactly one line per stream element (in order, each showing
that element's rendered result), followed by one trailing "done" line. -/
theorem main_logs_each_element_then_done (current_dir : Except IOErr PathBuf)
    (os : OsDirs) (root : PathBuf) (rd : ReadDirStream)
    (hc : current_dir = .ok root) (hrd : os root = .ok rd) :
    (mainTrace current_dir os).filterMap Event.infoLine
      = (rd.map mapEntry).map renderResult ++ ["done"] ∧
    ((mainTrace current_dir os).filterMap Event.infoLine).length
      = (rd.map mapEntry).length + 1 := by
  subst hc
  have hlist : TokioVfs.list_files os root = .stream (rd.map mapEntry) := by
    unfold TokioVfs.list_files
    rw [hrd]
  have htrace : (mainTrace (.ok root) os).filterMap Event.infoLine
      = (rd.map mapEntry).map renderResult ++ ["done"] := by
    simp only [mainTrace, hlist, List.filterMap_cons, Event.infoLine,
      List.filterMap_append]
    rw [filterMap_infoLine_map_logInfo]
    rfl
  refine ⟨htrace, ?_⟩
  rw [htrace]
  simp

/-- Witness for C8: a run over a one-entry directory emits that entry's line
and then "done". -/
theorem main_logs_each_element_then_done_witness :
    (mainTrace (.ok ⟨[]⟩) (fun _ => .ok [.ok ⟨⟨["a"]⟩⟩])).filterMap
        Event.infoLine
      = (([.ok ⟨⟨["a"]⟩⟩] : ReadDirStream).map mapEntry).map renderResult
        ++ ["done"] ∧
    ((mainTrace (.ok ⟨[]⟩) (fun _ => .ok [.ok ⟨⟨["a"]⟩⟩])).filterMap
        Event.infoLine).length
      = (([.ok ⟨⟨["a"]⟩⟩] : ReadDirStream).map mapEntry).length + 1 :=
  main_logs_each_element_then_done _ _ ⟨[]⟩ [.ok ⟨⟨["a"]⟩⟩] rfl rfl

/-- **C10.** When resolving the current working directory fails, `main`
panics at once: the trace is the lone panic event, with no VFS construction,
no `list_files` call, and no info log line of any content. -/
theorem main_cwd_failure_panics_first (e : IOErr) (os : OsDirs) :
    mainTrace (.error e) os = [Event.panicked] ∧
    Event.vfsConstructed ∉ mainTrace (.error e) os ∧
    Event.listFilesCalled ∉ mainTrace (.error e) os ∧
    ∀ line, Event.logInfo line ∉ mainTrace (.error e) os := by
  refine ⟨rfl, ?_, ?_, ?_⟩ <;> simp [mainTrace]

/-- An OS filesystem call, interpreted against the directory state below.
`read_dir` and `next_entry` are the only calls the program issues; the
mutating calls are included so that "no mutation" is not vacuous. -/
inductive OsCall where
  | read_dir (path : PathBuf)
  | next_entry (path : PathBuf)
  | create_dir (path : PathBuf)
  | remove_dir (path : PathBuf)
deriving DecidableEq, Repr

/-- Whether a call mutates the filesystem. -/
def OsCall.mutates : OsCall → Bool
  | .read_dir _ => false
  | .next_entry _ => false
  | .create_dir _ => true
  | .remove_dir _ => true

/-- Interpret one OS call as a transformation of the directory state. -/
def OsCall.apply : OsCall → OsDirs → OsDirs
  | .read_dir _, fs => fs
  | .next_entry _, fs => fs
  | .create_dir p, fs => fun q => if q = p then .ok [] else fs q
  | .remove_dir p, fs => fun q => if q = p then .error .notFound else fs q

/-- Run a list of OS calls against the directory state. -/
def runCalls (calls : List OsCall) (fs : OsDirs) : OsDirs :=
  calls.foldl (fun st c => c.apply st) fs

/-- The OS calls `list_files` itself issues: the single directory open. -/
def list_files_calls (path : PathBuf) : List OsCall :=
  [.read_dir path]

/-- The OS calls issued while the consumer drains a stream of `n` elements:
one fetch per element plus the final empty fetch, and nothing else. -/
def drain_calls (path : PathBuf) (n : Nat) : List OsCall :=
  List.replicate (n + 1) (.next_entry path)

theorem runCalls_next_entry (path : PathBuf) (k : Nat) (fs : OsDirs) :
    runCalls (List.replicate k (.next_entry path)) fs = fs := by
  induction k generalizing fs with
  | zero => rfl
  | succ m ih => simpa [runCalls, List.replicate_succ, OsCall.apply] using ih fs

/-- **C9.** The calls issued by `list_files` and by draining its stream are
all non-mutating, and running them leaves the filesystem state exactly as it
was: the only OS interaction is the read of directory state. -/
theorem list_files_no_mutation (fs : OsDirs) (path : PathBuf) (n : Nat) :
    runCalls (list_files_calls path ++ drain_calls path n) fs = fs ∧
    ∀ c ∈ list_files_calls path ++ drain_calls path n, c.mutates = false := by
  constructor
  · show runCalls (.read_dir path :: List.replicate (n + 1) (.next_entry path))
        fs = fs
    have h : runCalls (List.replicate (n + 1) (.next_entry path)) fs = fs :=
      runCalls_next_entry path (n + 1) fs
    simpa [runCalls, OsCall.apply] using h
  · intro c hc
    simp only [list_files_calls, drain_calls, List.mem_append,
      List.mem_singleton, List.mem_replicate] at hc
    rcases hc with rfl | ⟨-, rfl⟩ <;> rfl
